import Mathlib

/-!
Verification of the caching and rate-limiting core of the
Hardware-Store-AI-Assistant backend.

The definitions below are a shallow embedding of the Python sources:

* `src/backend/app/utils/security.py` — `RateLimiter` (sliding-window
  admission control) and the API-key dependency functions;
* `src/backend/app/utils/redis_client.py` — `RedisClient` (tiered cache
  with key derivation, degradation on backend failure, bulk clear).

Python `time.time()` floats are modelled as rationals, Python strings as
lists of characters where key structure matters, `None`-or-value returns
as `Option`, and a raw backend call (which may raise) as a `CallOutcome`.
-/

set_option maxHeartbeats 1000000

namespace HSAI

/-! ### Rate limiter (security.py, class RateLimiter) -/

/-- Request instants, modelling Python `time.time()` values exactly. -/
abbrev Time := ℚ

/-- Python `int(x)`: truncation toward zero. -/
def pyInt (x : ℚ) : ℤ := if 0 ≤ x then ⌊x⌋ else ⌈x⌉

/-- The rate-limit info dict built by `RateLimiter.is_allowed`. -/
structure RateInfo where
  limit : ℕ
  remaining : ℕ
  reset : ℤ
  current : ℕ
  deriving Repr, DecidableEq

/-- Caller classes carried by an API key (`get_key_type` values). -/
inductive KeyType where
  | admin : KeyType
  | user : KeyType
  deriving Repr, DecidableEq

/-- The three configured requests-per-minute quotas of `RateLimiter.__init__`. -/
structure RateLimiterConfig where
  defaultRpm : ℕ
  adminRpm : ℕ
  userRpm : ℕ
  deriving Repr, DecidableEq

/-- `RateLimiter._get_rate_limit`: quota selection by key type. -/
def get_rate_limit (cfg : RateLimiterConfig) : Option KeyType → ℕ
  | some .admin => cfg.adminRpm
  | some .user => cfg.userRpm
  | none => cfg.defaultRpm

/-- The cleanup loop of `is_allowed`:
`while requests_queue and requests_queue[0] < window_start: popleft()`.
The queue is a list with its front (oldest entry) first. -/
def purge (wstart : Time) : List Time → List Time
  | [] => []
  | t :: ts => if t < wstart then purge wstart ts else t :: ts

/-- Result of one `RateLimiter.is_allowed` call: the admission decision,
the identifier's queue after the call, and the info dict. -/
structure CheckResult where
  allowed : Bool
  queue : List Time
  info : RateInfo
  deriving Repr, DecidableEq

/-- `RateLimiter.is_allowed` on a single identifier's queue, with the
current time made explicit.  Mirrors security.py lines 103-148: purge the
window, reject without recording when `current_requests >= rate_limit`,
otherwise append `now` and accept. -/
def is_allowed (rateLimit : ℕ) (now : Time) (q : List Time) : CheckResult :=
  let wstart := now - 60
  let q' := purge wstart q
  let current := q'.length
  if rateLimit ≤ current then
    { allowed := false
      queue := q'
      info := { limit := rateLimit, remaining := 0
                reset := pyInt (q'.headD now + 60), current := current } }
  else
    { allowed := true
      queue := q' ++ [now]
      info := { limit := rateLimit, remaining := rateLimit - current - 1
                reset := pyInt (now + 60), current := current + 1 } }

/-- The limiter's `_requests` table: `defaultdict(lambda: deque())`,
modelled as a total map defaulting to the empty queue. -/
abbrev ReqTable := String → List Time

/-- `is_allowed` at table level: it reads and rewrites exactly the entry
of `ident`, leaving every other identifier's queue alone. -/
def tableCheck (rateLimit : ℕ) (now : Time) (tbl : ReqTable) (ident : String) :
    (Bool × RateInfo) × ReqTable :=
  let r := is_allowed rateLimit now (tbl ident)
  ((r.allowed, r.info), fun j => if j = ident then r.queue else tbl j)

/-- A sequence of checks, all for the same identifier, at the given times. -/
def tableCheckMany (rateLimit : ℕ) (ident : String) (times : List Time)
    (tbl : ReqTable) : ReqTable :=
  times.foldl (fun t now => (tableCheck rateLimit now t ident).2) tbl

/-- Run a sequence of timed checks against one queue, collecting the
admission decisions in order. -/
def runChecks (rateLimit : ℕ) : List Time → List Time → List Bool × List Time
  | [], q => ([], q)
  | t :: ts, q =>
    let r := is_allowed rateLimit t q
    let rest := runChecks rateLimit ts r.queue
    (r.allowed :: rest.1, rest.2)

/-! Basic lemmas about `purge`. -/

/-- `purge` splits the queue: the dropped front entries are exactly ones
strictly older than the window start. -/
theorem purge_decomp (w : Time) :
    ∀ q : List Time, ∃ d, q = d ++ purge w q ∧ ∀ t ∈ d, t < w := by
  intro q
  induction q with
  | nil => exact ⟨[], rfl, by simp⟩
  | cons a as ih =>
    by_cases h : a < w
    · obtain ⟨d, hd, hlt⟩ := ih
      refine ⟨a :: d, ?_, ?_⟩
      · simp [purge, h, ← hd]
      · intro t ht
        rcases List.mem_cons.mp ht with rfl | ht'
        · exact h
        · exact hlt t ht'
    · exact ⟨[], by simp [purge, h], by simp⟩

theorem purge_sublist (w : Time) (q : List Time) : (purge w q).Sublist q := by
  obtain ⟨d, hd, -⟩ := purge_decomp w q
  conv_rhs => rw [hd]
  exact List.sublist_append_right d (purge w q)

theorem purge_length_le (w : Time) (q : List Time) :
    (purge w q).length ≤ q.length :=
  (purge_sublist w q).length_le

theorem mem_of_mem_purge {w : Time} {q : List Time} {t : Time}
    (h : t ∈ purge w q) : t ∈ q :=
  (purge_sublist w q).mem h

/-- On a nondecreasing queue, the front-only purge removes exactly the
entries that lie outside the window. -/
theorem purge_eq_filter (w : Time) :
    ∀ q : List Time, q.Sorted (· ≤ ·) →
      purge w q = q.filter (fun t => decide (w ≤ t)) := by
  intro q
  induction q with
  | nil => intro _; simp [purge]
  | cons a as ih =>
    intro hs
    rw [List.sorted_cons] at hs
    by_cases h : a < w
    · have hna : ¬ w ≤ a := not_le.mpr h
      simp only [purge, if_pos h, List.filter_cons, decide_eq_true_eq,
        if_neg hna]
      exact ih hs.2
    · have hwa : w ≤ a := not_lt.mp h
      have hall : ∀ t ∈ as, w ≤ t := fun t ht => le_trans hwa (hs.1 t ht)
      simp only [purge, if_neg h, List.filter_cons, decide_eq_true_eq,
        if_pos hwa]
      rw [List.filter_eq_self.mpr (by simpa using hall)]

theorem purge_sorted {w : Time} {q : List Time} (hs : q.Sorted (· ≤ ·)) :
    (purge w q).Sorted (· ≤ ·) :=
  hs.sublist (purge_sublist w q)

/-- One check keeps the queue nondecreasing and bounded by the check time,
provided every recorded entry is at most `now`. -/
theorem isAllowed_queue_sorted {rateLimit : ℕ} {now : Time} {q : List Time}
    (hs : q.Sorted (· ≤ ·)) (hb : ∀ t ∈ q, t ≤ now) :
    (is_allowed rateLimit now q).queue.Sorted (· ≤ ·) ∧
      ∀ t ∈ (is_allowed rateLimit now q).queue, t ≤ now := by
  simp only [is_allowed]
  by_cases h : rateLimit ≤ (purge (now - 60) q).length
  · simp only [if_pos h]
    exact ⟨purge_sorted hs, fun t ht => hb t (mem_of_mem_purge ht)⟩
  · simp only [if_neg h]
    constructor
    · rw [List.Sorted, List.pairwise_append]
      refine ⟨purge_sorted hs, List.pairwise_singleton _ _, ?_⟩
      intro x hx y hy
      rw [List.mem_singleton] at hy
      subst hy
      exact hb x (mem_of_mem_purge hx)
    · intro t ht
      rcases List.mem_append.mp ht with h1 | h1
      · exact hb t (mem_of_mem_purge h1)
      · rw [List.mem_singleton] at h1
        subst h1
        exact le_refl _

/-- Running checks at nondecreasing times keeps the queue nondecreasing. -/
theorem runChecks_sorted_aux (rateLimit : ℕ) :
    ∀ (times q : List Time), times.Sorted (· ≤ ·) → q.Sorted (· ≤ ·) →
      (∀ t ∈ q, ∀ u ∈ times, t ≤ u) →
      (runChecks rateLimit times q).2.Sorted (· ≤ ·) := by
  intro times
  induction times with
  | nil => intro q _ hq _; simpa [runChecks] using hq
  | cons t ts ih =>
    intro q hts hq hb
    rw [List.sorted_cons] at hts
    have hbt : ∀ x ∈ q, x ≤ t := fun x hx => hb x hx t (List.mem_cons_self t ts)
    obtain ⟨hq', hb'⟩ := @isAllowed_queue_sorted rateLimit t q hq hbt
    simp only [runChecks]
    exact ih _ hts.2 hq' (fun x hx u hu => le_trans (hb' x hx) (hts.1 u hu))

/-- C1. Sliding-window rate limiter correctness: a check drops exactly the
timestamps older than `now - 60`, admits iff the remaining count is
strictly below the quota, and the quota-5 scenario (five requests inside
one second admitted, the sixth rejected, a request 61 seconds later
admitted again) plays out as specified. -/
theorem rateLimiter_sliding_window (rateLimit : ℕ) (now : Time)
    (q : List Time) (hs : q.Sorted (· ≤ ·)) :
    purge (now - 60) q = q.filter (fun t => decide (now - 60 ≤ t)) ∧
    ((is_allowed rateLimit now q).allowed = true ↔
      (q.filter (fun t => decide (now - 60 ≤ t))).length < rateLimit) ∧
    (runChecks 5 [0, 0, 0, 0, 0, 0, 61] []).1 =
      [true, true, true, true, true, false, true] := by
  refine ⟨purge_eq_filter _ _ hs, ?_, by norm_num [runChecks, is_allowed, purge]⟩
  rw [← purge_eq_filter _ _ hs]
  simp only [is_allowed]
  by_cases h : rateLimit ≤ (purge (now - 60) q).length
  · simp [if_pos h, not_lt.mpr h]
  · simp [if_neg h, not_le.mp h]

theorem rateLimiter_sliding_window_witness :
    purge ((61 : ℚ) - 60) [0, 30] =
      List.filter (fun t => decide ((61 : ℚ) - 60 ≤ t)) [0, 30] ∧
    ((is_allowed 5 61 [0, 30]).allowed = true ↔
      (List.filter (fun t => decide ((61 : ℚ) - 60 ≤ t)) [0, 30]).length < 5) ∧
    (runChecks 5 [0, 0, 0, 0, 0, 0, 61] []).1 =
      [true, true, true, true, true, false, true] :=
  rateLimiter_sliding_window 5 61 [0, 30]
    (by norm_num [List.sorted_cons])

/-- C4. Admission-time invariant: a queue at or below quota stays at or
below quota after a check, a rejected check appends nothing beyond the
lazy purge, and the purge only discards entries older than the window. -/
theorem rateLimiter_admission_invariant (rateLimit : ℕ) (now : Time)
    (q : List Time) (hlen : q.length ≤ rateLimit) :
    (is_allowed rateLimit now q).queue.length ≤ rateLimit ∧
    ((is_allowed rateLimit now q).allowed = false →
      (is_allowed rateLimit now q).queue = purge (now - 60) q) ∧
    ∃ dropped, q = dropped ++ purge (now - 60) q ∧
      ∀ t ∈ dropped, t < now - 60 := by
  refine ⟨?_, ?_, purge_decomp _ q⟩
  · simp only [is_allowed]
    by_cases h : rateLimit ≤ (purge (now - 60) q).length
    · simp only [if_pos h]
      exact le_trans (purge_length_le _ _) hlen
    · simp only [if_neg h, List.length_append, List.length_singleton]
      exact Nat.succ_le_of_lt (not_le.mp h)
  · simp only [is_allowed]
    by_cases h : rateLimit ≤ (purge (now - 60) q).length
    · simp [if_pos h]
    · simp [if_neg h]

theorem rateLimiter_admission_invariant_witness :
    (is_allowed 2 100 [50, 99]).queue.length ≤ 2 ∧
    ((is_allowed 2 100 [50, 99]).allowed = false →
      (is_allowed 2 100 [50, 99]).queue = purge ((100 : ℚ) - 60) [50, 99]) ∧
    ∃ dropped, [(50 : ℚ), 99] = dropped ++ purge ((100 : ℚ) - 60) [50, 99] ∧
      ∀ t ∈ dropped, t < (100 : ℚ) - 60 :=
  rateLimiter_admission_invariant 2 100 [50, 99] (by decide)

/-- C5. Quota isolation: a check for identifier `a` leaves every other
identifier's queue untouched, so any sequence of checks for `a` changes
neither `b`'s timestamps nor the outcome of `b`'s next check. -/
theorem rateLimiter_quota_isolation (rl rl2 : ℕ) (now now2 : Time)
    (tbl : ReqTable) (a b : String) (hne : b ≠ a) :
    (tableCheck rl now tbl a).2 b = tbl b ∧
    (∀ times, tableCheckMany rl a times tbl b = tbl b) ∧
    is_allowed rl2 now2 ((tableCheck rl now tbl a).2 b) =
      is_allowed rl2 now2 (tbl b) ∧
    (tableCheck rl2 now2 ((tableCheck rl now tbl a).2) b).1 =
      (tableCheck rl2 now2 tbl b).1 := by
  have frame : ∀ (n : Time) (t : ReqTable), (tableCheck rl n t a).2 b = t b := by
    intro n t
    simp [tableCheck, hne]
  refine ⟨frame now tbl, ?_, by rw [frame now tbl], ?_⟩
  · intro times
    induction times generalizing tbl with
    | nil => simp [tableCheckMany]
    | cons t ts ih =>
      simp only [tableCheckMany, List.foldl_cons]
      rw [show ∀ u, List.foldl (fun s n => (tableCheck rl n s a).2) u ts =
        tableCheckMany rl a ts u from fun _ => rfl, ih, frame t tbl]
  · simp [tableCheck, hne]

theorem rateLimiter_quota_isolation_witness :
    (tableCheck 5 10 (fun _ => []) "A").2 "B" = (fun _ : String => ([] : List Time)) "B" ∧
    (∀ times, tableCheckMany 5 "A" times (fun _ => []) "B" =
      (fun _ : String => ([] : List Time)) "B") ∧
    is_allowed 3 20 ((tableCheck 5 10 (fun _ => []) "A").2 "B") =
      is_allowed 3 20 ((fun _ : String => ([] : List Time)) "B") ∧
    (tableCheck 3 20 ((tableCheck 5 10 (fun _ => []) "A").2) "B").1 =
      (tableCheck 3 20 (fun _ => []) "B").1 :=
  rateLimiter_quota_isolation 5 3 10 20 (fun _ => []) "A" "B" (by decide)

/-- C10. Ordering invariant: starting from an empty table, any sequence of
checks at nondecreasing times leaves the recorded queue nondecreasing, so
the front-only purge removes exactly the out-of-window timestamps. -/
theorem rateWindow_ordering_invariant (rateLimit : ℕ) (times : List Time)
    (hts : times.Sorted (· ≤ ·)) :
    (runChecks rateLimit times []).2.Sorted (· ≤ ·) ∧
    ∀ w, purge w (runChecks rateLimit times []).2 =
      ((runChecks rateLimit times []).2).filter (fun t => decide (w ≤ t)) := by
  have hsorted := runChecks_sorted_aux rateLimit times [] hts
    (List.sorted_nil) (by simp)
  exact ⟨hsorted, fun w => purge_eq_filter w _ hsorted⟩

theorem rateWindow_ordering_invariant_witness :
    (runChecks 5 [1, 2, 2, 70] []).2.Sorted (· ≤ ·) ∧
    ∀ w, purge w (runChecks 5 [1, 2, 2, 70] []).2 =
      ((runChecks 5 [1, 2, 2, 70] []).2).filter (fun t => decide (w ≤ t)) :=
  rateWindow_ordering_invariant 5 [1, 2, 2, 70]
    (by norm_num [List.sorted_cons])

/-! ### Redis client connectivity and degradation (redis_client.py) -/

/-- The mutable connectivity flag of `RedisClient` (`self.connected`). -/
structure ClientState where
  connected : Bool
  deriving Repr, DecidableEq

/-- `RedisClient._connect`: run only from `__init__`; the flag records
whether the initial ping succeeded. -/
def connect (pingOk : Bool) : ClientState := ⟨pingOk⟩

/-- `RedisClient.is_connected`, with the backend's current reachability
(`pingOk`: would `ping()` succeed right now?) made explicit.  Returns the
reported status and the state after the call.  When the flag is already
false the method returns immediately without probing; a failed probe
clears the flag. -/
def is_connected (pingOk : Bool) (s : ClientState) : Bool × ClientState :=
  if s.connected then
    if pingOk then (true, s) else (false, ⟨false⟩)
  else (false, s)

/-- Outcome of one raw backend operation: a returned value or a raised
exception. -/
inductive CallOutcome (α : Type) where
  | ok : α → CallOutcome α
  | raised : CallOutcome α
  deriving Repr, DecidableEq

/-- `RedisClient._safe_execute`: probe first, skip the call when down,
catch any exception and convert it to the `None` sentinel. -/
def safe_execute {α : Type} (pingOk : Bool) (s : ClientState)
    (call : CallOutcome α) : Option α × ClientState :=
  let c := is_connected pingOk s
  if c.1 then
    match call with
    | .ok a => (some a, c.2)
    | .raised => (none, c.2)
  else (none, c.2)

/-- Embedding vectors (`List[float]` payloads, serialized through JSON). -/
abbrev Embedding := List ℚ

/-- Generic shape of the three `get_*` cache readers: the wrapped inner
function itself returns `None` on a cache miss, so the Python caller sees
the join of the two option layers. -/
def cache_get {α : Type} (pingOk : Bool) (s : ClientState)
    (call : CallOutcome (Option α)) : Option α × ClientState :=
  let r := safe_execute pingOk s call
  (r.1.join, r.2)

/-- `RedisClient.get_embedding`. -/
def get_embedding (pingOk : Bool) (s : ClientState)
    (call : CallOutcome (Option Embedding)) : Option Embedding × ClientState :=
  cache_get pingOk s call

/-- `RedisClient.get_search_results` (payload: list of product dicts,
abstracted to their JSON serializations). -/
def get_search_results (pingOk : Bool) (s : ClientState)
    (call : CallOutcome (Option (List String))) :
    Option (List String) × ClientState :=
  cache_get pingOk s call

/-- `RedisClient.get_vector_skus`. -/
def get_vector_skus (pingOk : Bool) (s : ClientState)
    (call : CallOutcome (Option (List String))) :
    Option (List String) × ClientState :=
  cache_get pingOk s call

/-- `RedisClient.set_embedding`: returns `_safe_execute`'s result, which
is `None` (not `False`) on failure; its annotated type is `bool` and all
callers use it in boolean position. -/
def set_embedding (pingOk : Bool) (s : ClientState)
    (call : CallOutcome Bool) : Option Bool × ClientState :=
  safe_execute pingOk s call

/-- `RedisClient.set_search_results`. -/
def set_search_results (pingOk : Bool) (s : ClientState)
    (call : CallOutcome Bool) : Option Bool × ClientState :=
  safe_execute pingOk s call

/-- `RedisClient.set_vector_skus`. -/
def set_vector_skus (pingOk : Bool) (s : ClientState)
    (call : CallOutcome Bool) : Option Bool × ClientState :=
  safe_execute pingOk s call

/-- Python truthiness of the `bool`-annotated return value, which may be
`None`: `None` and `False` are falsy. -/
def pyTruthy : Option Bool → Bool
  | none => false
  | some b => b

/-- C2. Never-raise degradation: if the client is disconnected or the
probe fails, every `get_*` returns the absent sentinel and every `set_*`
returns a falsy value, whatever the backend calls would have done; and —
unconditionally, in particular with the backend connected and the probe
succeeding — a wrapped call that raises is absorbed by `_safe_execute`'s
try/except and likewise yields the absent sentinel / a falsy value.  No
exception escapes: each operation is a total function into
`Option`-valued results, and the `raised` outcome is never re-thrown. -/
theorem cache_never_raises (pingOk : Bool) (s : ClientState)
    (ge : CallOutcome (Option Embedding))
    (gs gv : CallOutcome (Option (List String)))
    (se ss sv : CallOutcome Bool) :
    (s.connected = false ∨ pingOk = false →
     (get_embedding pingOk s ge).1 = none ∧
     (get_search_results pingOk s gs).1 = none ∧
     (get_vector_skus pingOk s gv).1 = none ∧
     pyTruthy (set_embedding pingOk s se).1 = false ∧
     pyTruthy (set_search_results pingOk s ss).1 = false ∧
     pyTruthy (set_vector_skus pingOk s sv).1 = false) ∧
    ((get_embedding pingOk s .raised).1 = none ∧
     (get_search_results pingOk s .raised).1 = none ∧
     (get_vector_skus pingOk s .raised).1 = none ∧
     pyTruthy (set_embedding pingOk s .raised).1 = false ∧
     pyTruthy (set_search_results pingOk s .raised).1 = false ∧
     pyTruthy (set_vector_skus pingOk s .raised).1 = false) := by
  constructor
  · intro hdown
    have hconn : (is_connected pingOk s).1 = false := by
      rcases hdown with h | h
      · simp [is_connected, h]
      · cases hs2 : s.connected <;> simp [is_connected, h, hs2]
    simp [get_embedding, get_search_results, get_vector_skus, cache_get,
      set_embedding, set_search_results, set_vector_skus,
      safe_execute, hconn, pyTruthy]
  · cases hs : s.connected <;>
      cases hp : pingOk <;>
      simp [get_embedding, get_search_results, get_vector_skus, cache_get,
        set_embedding, set_search_results, set_vector_skus,
        safe_execute, is_connected, hs, hp, pyTruthy]

/-- The witness exercises both arms at concrete states: a disconnected
client degrades calls that would have succeeded, and a connected client
with a succeeding probe absorbs a raising call. -/
theorem cache_never_raises_witness :
    ((get_embedding false ⟨true⟩ (.ok (some [1]))).1 = none ∧
     (get_search_results false ⟨true⟩ (.ok (some ["a"]))).1 = none ∧
     (get_vector_skus false ⟨true⟩ (.ok (some ["s"]))).1 = none ∧
     pyTruthy (set_embedding false ⟨true⟩ (.ok true)).1 = false ∧
     pyTruthy (set_search_results false ⟨true⟩ (.ok true)).1 = false ∧
     pyTruthy (set_vector_skus false ⟨true⟩ (.ok true)).1 = false) ∧
    ((get_embedding true ⟨true⟩ .raised).1 = none ∧
     (get_search_results true ⟨true⟩ .raised).1 = none ∧
     (get_vector_skus true ⟨true⟩ .raised).1 = none ∧
     pyTruthy (set_embedding true ⟨true⟩ .raised).1 = false ∧
     pyTruthy (set_search_results true ⟨true⟩ .raised).1 = false ∧
     pyTruthy (set_vector_skus true ⟨true⟩ .raised).1 = false) :=
  ⟨(cache_never_raises false ⟨true⟩ (.ok (some [1])) (.ok (some ["a"]))
      (.ok (some ["s"])) (.ok true) (.ok true) (.ok true)).1 (Or.inr rfl),
   (cache_never_raises true ⟨true⟩ .raised .raised .raised
      .raised .raised .raised).2⟩

/-- C8 counterexample: the claimed recovery does not happen.  Construct a
client whose initial ping succeeded, let one probe fail (the flag flips to
false), then make the backend reachable again: the next `is_connected`
call still reports false, because a cleared flag short-circuits the probe
forever — nothing ever sets `connected` back to true after `__init__`. -/
theorem connectivity_recovery_counterexample :
    ¬ (is_connected true ((is_connected false (connect true)).2)).1 = true := by
  decide

/-- C8 (amended). Connectivity state: while the flag is set, each logical
operation re-verifies it with a probe, and a failed probe flips the state
to disconnected; but the short-circuit is permanent — once the flag is
false, every subsequent call returns false without probing, regardless of
backend reachability, so cache operations never resume within the same
client. -/
theorem connectivity_short_circuit (pingOk : Bool) (s : ClientState) :
    (s.connected = false → is_connected pingOk s = (false, s)) ∧
    (s.connected = true → pingOk = true → is_connected pingOk s = (true, s)) ∧
    (s.connected = true → pingOk = false →
      is_connected pingOk s = (false, ⟨false⟩)) ∧
    (∀ pings : List Bool,
      pings.foldl (fun st p => (is_connected p st).2) ⟨false⟩ = ⟨false⟩) := by
  refine ⟨?_, ?_, ?_, ?_⟩
  · intro h; simp [is_connected, h]
  · intro h hp; simp [is_connected, h, hp]
  · intro h hp; simp [is_connected, h, hp]
  · intro pings
    induction pings with
    | nil => rfl
    | cons p ps ih => simpa [is_connected] using ih

theorem connectivity_short_circuit_witness :
    ((⟨false⟩ : ClientState).connected = false →
      is_connected true ⟨false⟩ = (false, ⟨false⟩)) ∧
    ((⟨false⟩ : ClientState).connected = true → true = true →
      is_connected true ⟨false⟩ = (true, ⟨false⟩)) ∧
    ((⟨false⟩ : ClientState).connected = true → true = false →
      is_connected true ⟨false⟩ = (false, ⟨false⟩)) ∧
    (∀ pings : List Bool,
      pings.foldl (fun st p => (is_connected p st).2) ⟨false⟩ = ⟨false⟩) :=
  connectivity_short_circuit true ⟨false⟩

/-! ### Cache key derivation (redis_client.py, `_make_key` and friends)

Python strings are modelled as lists of characters so that key structure
(prefixes, delimiters) can be reasoned about directly. -/

/-- A Python string as its sequence of characters. -/
abbrev Str := List Char

/-- `RedisClient._make_key`, with the `hashlib.md5(...).hexdigest()` step
abstracted as a function parameter `md5hex`: identifiers longer than 100
characters are replaced by their digest, then the namespaced key
`f"hsai:{prefix}:{identifier}"` is assembled. -/
def make_key (md5hex : Str → Str) (tier ident : Str) : Str :=
  "hsai:".data ++ tier ++ ':' ::
    (if 100 < ident.length then md5hex ident else ident)

/-- `RedisClient.hash_embedding`: serialize the vector canonically
(`json.dumps(embedding, sort_keys=True)`, abstracted as `dumps`) and
digest the result. -/
def hash_embedding (md5hex : Str → Str) (dumps : Embedding → Str)
    (emb : Embedding) : Str :=
  md5hex (dumps emb)

/-- Decimal rendering of a natural number, as Python `str(n)` produces
inside an f-string. -/
def natRepr (n : ℕ) : Str :=
  if n = 0 then ['0'] else ((Nat.digits 10 n).map Nat.digitChar).reverse

/-- The compound identifier `f"{query}::{top_k}"` used by the search and
vector tiers. -/
def compound (base : Str) (topK : ℕ) : Str :=
  base ++ ':' :: ':' :: natRepr topK

/-- The full cache key of `get_search_results` / `set_search_results`. -/
def searchCacheKey (md5hex : Str → Str) (query : Str) (topK : ℕ) : Str :=
  make_key md5hex "search".data (compound query topK)

/-- The full cache key of `get_vector_skus` / `set_vector_skus`. -/
def vectorCacheKey (md5hex : Str → Str) (ehash : Str) (topK : ℕ) : Str :=
  make_key md5hex "vector".data (compound ehash topK)

/-- The three tier tags of the cache namespace. -/
def tierTags : List Str := ["embedding".data, "search".data, "vector".data]

/-- Whether `clear_cache`'s `KEYS` glob selects a stored key: pattern
`hsai:{p}:*` selects exactly the keys that extend `hsai:{p}:`, and the
patternless call uses `hsai:*`. -/
def clearSelects (pat : Option Str) (key : Str) : Bool :=
  match pat with
  | some p => List.isPrefixOf ("hsai:".data ++ p ++ [':']) key
  | none => List.isPrefixOf "hsai:".data key

/-- `RedisClient.clear_cache` against an abstract key store: the surviving
keys and the count of deleted ones. -/
def clear_cache (pat : Option Str) (db : List Str) : List Str × ℕ :=
  (db.filter (fun k => ! clearSelects pat k),
   (db.filter (fun k => clearSelects pat k)).length)

/-- C3. Cache-key derivation is a deterministic total function: repeated
derivation yields the same key; identifiers of length at most 100 are used
raw while longer ones are replaced by their digest (keeping keys bounded,
given that a hex digest has 32 characters); the empty string and the
empty vector are handled, producing ordinary keys. -/
theorem makeKey_total_deterministic (md5hex : Str → Str)
    (dumps : Embedding → Str) (tier text : Str)
    (hlen : ∀ s, (md5hex s).length = 32) :
    make_key md5hex tier text = make_key md5hex tier text ∧
    (text.length ≤ 100 →
      make_key md5hex tier text = "hsai:".data ++ tier ++ ':' :: text) ∧
    (100 < text.length →
      make_key md5hex tier text = "hsai:".data ++ tier ++ ':' :: md5hex text) ∧
    (text.length ≤ 100 →
      (make_key md5hex tier text).length = tier.length + text.length + 6) ∧
    (100 < text.length →
      (make_key md5hex tier text).length = tier.length + 38) ∧
    (make_key md5hex tier text).length ≤ tier.length + 106 ∧
    make_key md5hex tier [] = "hsai:".data ++ tier ++ [':'] ∧
    hash_embedding md5hex dumps [] = md5hex (dumps []) := by
  have hshort : text.length ≤ 100 →
      make_key md5hex tier text = "hsai:".data ++ tier ++ ':' :: text := by
    intro h
    simp [make_key, not_lt.mpr h]
  have hlong : 100 < text.length →
      make_key md5hex tier text = "hsai:".data ++ tier ++ ':' :: md5hex text := by
    intro h
    simp [make_key, h]
  refine ⟨rfl, hshort, hlong, ?_, ?_, ?_, ?_, rfl⟩
  · intro h
    rw [hshort h]
    simp [List.length_append]
    omega
  · intro h
    rw [hlong h]
    simp [List.length_append, hlen text]
  · by_cases h : 100 < text.length
    · rw [hlong h]
      simp [List.length_append, hlen text]
    · rw [hshort (not_lt.mp h)]
      simp [List.length_append]
      omega
  · simp [make_key]

theorem makeKey_total_deterministic_witness :
    make_key (fun _ => List.replicate 32 'a') "search".data "hammer".data =
      "hsai:".data ++ "search".data ++ ':' :: "hammer".data ∧
    make_key (fun _ => List.replicate 32 'a') "search".data "hammer".data =
      make_key (fun _ => List.replicate 32 'a') "search".data "hammer".data ∧
    make_key (fun _ => List.replicate 32 'a') "search".data [] =
      "hsai:".data ++ "search".data ++ [':'] := by
  have h := makeKey_total_deterministic (fun _ => List.replicate 32 'a')
    (fun _ => []) "search".data "hammer".data (fun _ => by simp)
  exact ⟨h.2.1 (by decide), h.1, h.2.2.2.2.2.2.1⟩

/-- Every derived key sits under the root namespace `hsai:`. -/
theorem clearSelects_none_makeKey (md5hex : Str → Str) (tier ident : Str) :
    clearSelects none (make_key md5hex tier ident) = true := by
  simp [clearSelects, make_key, List.prefix_append]

/-- C6. Tier isolation of bulk clear: clearing one tier's pattern never
selects a key derived for a different tier, while the patternless clear
selects every derived key; consequently, in any store, another tier's key
survives the scoped clear and no derived key survives the full clear. -/
theorem clearCache_tier_isolation (md5hex : Str → Str) (ident : Str)
    (t1 t2 : Str) (h1 : t1 ∈ tierTags) (h2 : t2 ∈ tierTags) (hne : t1 ≠ t2) :
    clearSelects (some t1) (make_key md5hex t2 ident) = false ∧
    clearSelects none (make_key md5hex t2 ident) = true ∧
    ∀ db, make_key md5hex t2 ident ∈ db →
      make_key md5hex t2 ident ∈ (clear_cache (some t1) db).1 ∧
      make_key md5hex t2 ident ∉ (clear_cache none db).1 := by
  have hsel : clearSelects (some t1) (make_key md5hex t2 ident) = false := by
    have hkey : make_key md5hex t2 ident = "hsai:".data ++ t2 ++ ':' ::
        (if 100 < ident.length then md5hex ident else ident) := rfl
    rw [hkey]
    generalize (if 100 < ident.length then md5hex ident else ident) = body
    fin_cases h1 <;> fin_cases h2 <;> first
      | exact absurd rfl hne
      | rfl
  refine ⟨hsel, clearSelects_none_makeKey md5hex t2 ident, ?_⟩
  intro db hmem
  constructor
  · simp [clear_cache, List.mem_filter, hmem, hsel]
  · simp [clear_cache, List.mem_filter,
      clearSelects_none_makeKey md5hex t2 ident]

theorem clearCache_tier_isolation_witness :
    clearSelects (some "embedding".data)
      (make_key (fun s => s) "search".data "nails".data) = false ∧
    clearSelects none (make_key (fun s => s) "search".data "nails".data) = true ∧
    ∀ db, make_key (fun s => s) "search".data "nails".data ∈ db →
      make_key (fun s => s) "search".data "nails".data ∈
        (clear_cache (some "embedding".data) db).1 ∧
      make_key (fun s => s) "search".data "nails".data ∉
        (clear_cache none db).1 :=
  clearCache_tier_isolation (fun s => s) "nails".data
    "embedding".data "search".data (by decide) (by decide) (by decide)

/-! ### Compound-key injectivity across result limits (C7) -/

theorem digitChar_inj_below_ten :
    ∀ d1 < 10, ∀ d2 < 10, Nat.digitChar d1 = Nat.digitChar d2 → d1 = d2 := by
  decide

theorem digitChar_ne_colon : ∀ d < 10, Nat.digitChar d ≠ ':' := by
  decide

theorem map_digitChar_inj :
    ∀ (l1 l2 : List ℕ), (∀ d ∈ l1, d < 10) → (∀ d ∈ l2, d < 10) →
      l1.map Nat.digitChar = l2.map Nat.digitChar → l1 = l2
  | [], [], _, _, _ => rfl
  | [], _ :: _, _, _, h => by simp at h
  | _ :: _, [], _, _, h => by simp at h
  | d1 :: ds1, d2 :: ds2, hb1, hb2, h => by
    simp only [List.map_cons, List.cons.injEq] at h
    have hd : d1 = d2 :=
      digitChar_inj_below_ten d1 (hb1 d1 (List.mem_cons_self d1 ds1))
        d2 (hb2 d2 (List.mem_cons_self d2 ds2)) h.1
    have hds : ds1 = ds2 :=
      map_digitChar_inj ds1 ds2
        (fun d hd' => hb1 d (List.mem_cons_of_mem d1 hd'))
        (fun d hd' => hb2 d (List.mem_cons_of_mem d2 hd')) h.2
    rw [hd, hds]

theorem natRepr_injective : Function.Injective natRepr := by
  intro m n h
  unfold natRepr at h
  by_cases hm : m = 0 <;> by_cases hn : n = 0
  · exact hm.trans hn.symm
  · exfalso
    rw [if_pos hm, if_neg hn] at h
    have h' : (Nat.digits 10 n).map Nat.digitChar = ['0'] := by
      have := congrArg List.reverse h
      simpa using this.symm
    rcases hd : Nat.digits 10 n with _ | ⟨d, ds⟩
    · rw [hd] at h'
      simp at h'
    · rw [hd] at h'
      simp only [List.map_cons, List.cons.injEq, List.map_eq_nil_iff] at h'
      have hdlt : d < 10 :=
        Nat.digits_lt_base (by norm_num) (hd ▸ List.mem_cons_self d ds)
      have hd0 : d = 0 :=
        digitChar_inj_below_ten d hdlt 0 (by norm_num) (by simpa using h'.1)
      have : n = Nat.ofDigits 10 [0] := by
        rw [← Nat.ofDigits_digits 10 n, hd, h'.2, hd0]
      simp [Nat.ofDigits] at this
      exact hn this
  · exfalso
    rw [if_neg hm, if_pos hn] at h
    have h' : (Nat.digits 10 m).map Nat.digitChar = ['0'] := by
      have := congrArg List.reverse h
      simpa using this
    rcases hd : Nat.digits 10 m with _ | ⟨d, ds⟩
    · rw [hd] at h'
      simp at h'
    · rw [hd] at h'
      simp only [List.map_cons, List.cons.injEq, List.map_eq_nil_iff] at h'
      have hdlt : d < 10 :=
        Nat.digits_lt_base (by norm_num) (hd ▸ List.mem_cons_self d ds)
      have hd0 : d = 0 :=
        digitChar_inj_below_ten d hdlt 0 (by norm_num) (by simpa using h'.1)
      have : m = Nat.ofDigits 10 [0] := by
        rw [← Nat.ofDigits_digits 10 m, hd, h'.2, hd0]
      simp [Nat.ofDigits] at this
      exact hm this
  · rw [if_neg hm, if_neg hn] at h
    have h' : (Nat.digits 10 m).map Nat.digitChar =
        (Nat.digits 10 n).map Nat.digitChar := by
      have := congrArg List.reverse h
      simpa using this
    have hdig : Nat.digits 10 m = Nat.digits 10 n :=
      map_digitChar_inj _ _
        (fun d hd => Nat.digits_lt_base (by norm_num) hd)
        (fun d hd => Nat.digits_lt_base (by norm_num) hd) h'
    have := congrArg (Nat.ofDigits 10) hdig
    simpa [Nat.ofDigits_digits] using this

theorem colon_not_mem_natRepr (k : ℕ) : ':' ∉ natRepr k := by
  unfold natRepr
  by_cases hk : k = 0
  · rw [if_pos hk]
    decide
  · rw [if_neg hk]
    intro hmem
    rw [List.mem_reverse] at hmem
    obtain ⟨d, hd, hdc⟩ := List.mem_map.mp hmem
    exact digitChar_ne_colon d (Nat.digits_lt_base (by norm_num) hd) hdc

theorem colon_mem_compound (base : Str) (k : ℕ) : ':' ∈ compound base k := by
  unfold compound
  exact List.mem_append_right base (List.mem_cons_self ':' _)

theorem compound_inj_right {base : Str} {k1 k2 : ℕ}
    (h : compound base k1 = compound base k2) : k1 = k2 := by
  unfold compound at h
  have h' := List.append_cancel_left h
  simp only [List.cons.injEq, true_and] at h'
  exact natRepr_injective h'

/-- Same tier, same base component, different limits: the derived keys
differ, whether the compound identifiers stay raw or get digested. -/
theorem makeKey_compound_ne (md5hex : Str → Str)
    (hinj : Function.Injective md5hex) (hnc : ∀ s, ':' ∉ md5hex s)
    (tier base : Str) (k1 k2 : ℕ) (hk : k1 ≠ k2) :
    make_key md5hex tier (compound base k1) ≠
      make_key md5hex tier (compound base k2) := by
  intro h
  refine hk ?_
  unfold make_key at h
  have h2' := List.append_cancel_left h
  injection h2' with hhead h2
  by_cases b1 : 100 < (compound base k1).length <;>
    by_cases b2 : 100 < (compound base k2).length
  · rw [if_pos b1, if_pos b2] at h2
    exact compound_inj_right (hinj h2)
  · rw [if_pos b1, if_neg b2] at h2
    exact absurd (h2 ▸ colon_mem_compound base k2) (hnc (compound base k1))
  · rw [if_neg b1, if_pos b2] at h2
    exact absurd (h2 ▸ colon_mem_compound base k1) (hnc (compound base k2))
  · rw [if_neg b1, if_neg b2] at h2
    exact compound_inj_right h2

/-- C7. Compound-key injectivity across result limits: for a fixed query
text (search tier) or vector hash (vector tier), two distinct `top_k`
limits always derive distinct cache keys, assuming the digest function is
collision-free and produces hex characters only (no `:`), which holds of
`hashlib.md5(...).hexdigest()` short of an md5 collision. -/
theorem compoundKey_limit_injective (md5hex : Str → Str)
    (hinj : Function.Injective md5hex) (hnc : ∀ s, ':' ∉ md5hex s)
    (query ehash : Str) (k1 k2 : ℕ) (hk : k1 ≠ k2) :
    searchCacheKey md5hex query k1 ≠ searchCacheKey md5hex query k2 ∧
    vectorCacheKey md5hex ehash k1 ≠ vectorCacheKey md5hex ehash k2 :=
  ⟨makeKey_compound_ne md5hex hinj hnc "search".data query k1 k2 hk,
   makeKey_compound_ne md5hex hinj hnc "vector".data ehash k1 k2 hk⟩

/-- A concrete injective, colon-free stand-in for the digest, used by the
C7 witness: encode the character list into a natural number and render it
in decimal. -/
def encodeChars : Str → ℕ
  | [] => 0
  | c :: cs => Nat.pair c.toNat (encodeChars cs) + 1

theorem encodeChars_injective : Function.Injective encodeChars := by
  intro s1 s2 h
  induction s1 generalizing s2 with
  | nil =>
    cases s2 with
    | nil => rfl
    | cons d ds => simp [encodeChars] at h
  | cons c cs ih =>
    cases s2 with
    | nil => simp [encodeChars] at h
    | cons d ds =>
      simp only [encodeChars, Nat.add_right_cancel_iff] at h
      have hp := Nat.pair_eq_pair.mp h
      have hc : c = d := by
        have := congrArg Char.ofNat hp.1
        simpa [Char.ofNat_toNat] using this
      rw [hc, ih hp.2]

def md5Model (s : Str) : Str := natRepr (encodeChars s)

theorem md5Model_injective : Function.Injective md5Model :=
  fun _ _ h => encodeChars_injective (natRepr_injective h)

theorem md5Model_colonFree : ∀ s, ':' ∉ md5Model s :=
  fun s => colon_not_mem_natRepr (encodeChars s)

theorem compoundKey_limit_injective_witness :
    searchCacheKey md5Model "drill".data 5 ≠
      searchCacheKey md5Model "drill".data 10 ∧
    vectorCacheKey md5Model "abc".data 5 ≠
      vectorCacheKey md5Model "abc".data 10 :=
  compoundKey_limit_injective md5Model md5Model_injective md5Model_colonFree
    "drill".data "abc".data 5 10 (by decide)

/-! ### API-key authentication (security.py, `APIKeyAuth` and guards) -/

/-- The key sets loaded by `APIKeyAuth._load_api_keys`. -/
structure Registry where
  adminKeys : List String
  userKeys : List String
  deriving Repr, DecidableEq

/-- `APIKeyAuth.verify_admin_key`. -/
def verify_admin_key (r : Registry) (k : String) : Bool :=
  decide (k ∈ r.adminKeys)

/-- `APIKeyAuth.get_key_type`: admin first, then user, else none. -/
def get_key_type (r : Registry) (k : String) : Option KeyType :=
  if k ∈ r.adminKeys then some .admin
  else if k ∈ r.userKeys then some .user
  else none

/-- What a guard dependency does to a request: grant access (carrying the
resolved key type) or raise an HTTPException with the given status. -/
inductive AuthOutcome where
  | granted : KeyType → AuthOutcome
  | rejected : ℕ → AuthOutcome
  deriving Repr, DecidableEq

/-- `require_api_key`: missing header raises 401, a key of no configured
type raises 401, otherwise the request proceeds (to the rate-limit check,
which is not part of the credential decision modelled here). -/
def require_api_key (r : Registry) (apiKey : Option String) : AuthOutcome :=
  match apiKey with
  | none => .rejected 401
  | some k =>
    match get_key_type r k with
    | none => .rejected 401
    | some t => .granted t

/-- `require_admin_key`: missing header raises 401; any key that fails
`verify_admin_key` — whether it is a configured user key or unknown —
raises 403. -/
def require_admin_key (r : Registry) (apiKey : Option String) : AuthOutcome :=
  match apiKey with
  | none => .rejected 401
  | some k =>
    if verify_admin_key r k then .granted .admin else .rejected 403

/-- The legacy `admin_guard` of security.py (lines 330-334): a required
header whose non-admin values raise 401. -/
def admin_guard (r : Registry) (k : String) : AuthOutcome :=
  if verify_admin_key r k then .granted .admin else .rejected 401

/-- C9 counterexample.  The claim "a value that is not a configured key
yields 401, while a valid key of insufficient privilege yields 403" fails:
with admin key "a" and user key "u", `require_admin_key` rejects the
unconfigured key "z" with 403 (not 401), and the legacy `admin_guard`
rejects the configured user key "u" with 401 (not 403). -/
theorem auth_status_code_counterexample :
    ¬ (∀ (r : Registry) (k : String),
        (get_key_type r k = none →
          require_admin_key r (some k) = .rejected 401) ∧
        (get_key_type r k = some .user →
          admin_guard r k = .rejected 403)) := by
  intro h
  have h1 := (h ⟨["a"], ["u"]⟩ "z").1 (by decide)
  exact absurd h1 (by decide)

/-- C9 (amended). Authentication header contract as implemented: a missing
`X-API-Key` yields 401 on both dependency guards; under `require_api_key`
any unconfigured value yields 401 and any configured key is granted; under
`require_admin_key` every non-admin value — configured user key or unknown
alike — yields 403; the legacy `admin_guard` instead yields 401 for
non-admin values. -/
theorem auth_header_contract (r : Registry) (k : String) :
    require_api_key r none = .rejected 401 ∧
    require_admin_key r none = .rejected 401 ∧
    (get_key_type r k = none → require_api_key r (some k) = .rejected 401) ∧
    (∀ t, get_key_type r k = some t →
      require_api_key r (some k) = .granted t) ∧
    (verify_admin_key r k = false →
      require_admin_key r (some k) = .rejected 403) ∧
    (verify_admin_key r k = true →
      require_admin_key r (some k) = .granted .admin) ∧
    (verify_admin_key r k = false → admin_guard r k = .rejected 401) := by
  refine ⟨rfl, rfl, ?_, ?_, ?_, ?_, ?_⟩
  · intro h; simp [require_api_key, h]
  · intro t h; simp [require_api_key, h]
  · intro h; simp [require_admin_key, h]
  · intro h; simp [require_admin_key, h]
  · intro h; simp [admin_guard, h]

theorem auth_header_contract_witness :
    require_api_key ⟨["a"], ["u"]⟩ none = .rejected 401 ∧
    require_admin_key ⟨["a"], ["u"]⟩ none = .rejected 401 ∧
    (get_key_type ⟨["a"], ["u"]⟩ "u" = none →
      require_api_key ⟨["a"], ["u"]⟩ (some "u") = .rejected 401) ∧
    (∀ t, get_key_type ⟨["a"], ["u"]⟩ "u" = some t →
      require_api_key ⟨["a"], ["u"]⟩ (some "u") = .granted t) ∧
    (verify_admin_key ⟨["a"], ["u"]⟩ "u" = false →
      require_admin_key ⟨["a"], ["u"]⟩ (some "u") = .rejected 403) ∧
    (verify_admin_key ⟨["a"], ["u"]⟩ "u" = true →
      require_admin_key ⟨["a"], ["u"]⟩ (some "u") = .granted .admin) ∧
    (verify_admin_key ⟨["a"], ["u"]⟩ "u" = false →
      admin_guard ⟨["a"], ["u"]⟩ "u" = .rejected 401) :=
  auth_header_contract ⟨["a"], ["u"]⟩ "u"

end HSAI
